import Mathlib

/-!
Shallow embedding of the `html` tokenizer (tokenizer.go, tokens.go).
Runes are `Char`, strings are `List Char` where the source slices the
input buffer, the mutable `Tokenizer` receiver becomes explicit state
passing, and every scanning loop is structural recursion on a fuel
argument that is always at least `template.length + 1`, which is shown
to be sufficient wherever a claim depends on loop completion.
-/

namespace Html

structure Location where
  line : Nat
  column : Nat
  cursor : Nat
deriving DecidableEq, Repr

structure Attribute where
  name : List Char
  value : List Char
  nameLocation : Location
  valueLocation : Location
deriving DecidableEq, Repr

/-- Modelled from the spec: the `Doctype` struct declaration and its
`Kind()` method are not in the sources (only its construction sites in
`tokenizer.go` are); per spec sections 3, 6 and 9 it carries an
`isLegacy` flag and a location, and its discriminator string is distinct
from `"EOF"` and from the other variants' kinds. -/
def doctypeKind : String := "DOCTYPE"

inductive Token where
  | doctype (isLegacy : Bool) (location : Location)
  | startTag (name : List Char) (attributes : List (List Char × Attribute))
      (isSelfClosing : Bool) (location : Location)
  | endTag (name : List Char) (location : Location)
  | text (value : List Char) (location : Location)
  | illegal (reason : String) (location : Location)
  | eof (location : Location)
deriving DecidableEq, Repr

def Token.kind : Token → String
  | .doctype _ _ => doctypeKind
  | .startTag _ _ _ _ => "START_TAG"
  | .endTag _ _ => "END_TAG"
  | .text _ _ => "TEXT"
  | .illegal _ _ => "ILLEGAL"
  | .eof _ => "EOF"

structure Tokenizer where
  template : List Char
  i : Nat
  line : Nat
  column : Nat
deriving DecidableEq, Repr

def NewTokenizer (template : List Char) : Tokenizer :=
  { template := template, i := 0, line := 1, column := 1 }

/-- The rune 0 sentinel returned by `current`/`peek`/`advance` past the
end of the buffer. -/
def nul : Char := Char.ofNat 0

def isDigit (c : Char) : Bool := '0' ≤ c && c ≤ '9'

def isLetter (c : Char) : Bool := ('A' ≤ c && c ≤ 'Z') || ('a' ≤ c && c ≤ 'z')

def isWhitespace (c : Char) : Bool :=
  c = '\u0009' || c = '\u000A' || c = '\u000C' || c = '\u000D' || c = ' '

/-- Case-insensitive character comparison for the `(?i)` regex
fragments: equal characters, or the two ASCII cases of one letter (their
code points differ by 32).  On the letters that occur in `<!DOCTYPE` and
`html` the RE2 case-folding orbit is exactly the two ASCII cases, so
this is faithful. -/
def foldEqCI (p c : Char) : Bool :=
  p = c ||
    (isLetter p && isLetter c && (p.toNat + 32 = c.toNat || c.toNat + 32 = p.toNat))

/-- Case-insensitive literal lookahead (the `(?i)` regex fragments);
returns the rest of the input after the literal. -/
def matchCI : List Char → List Char → Option (List Char)
  | [], s => some s
  | _ :: _, [] => none
  | p :: ps, c :: cs => if foldEqCI p c then matchCI ps cs else none

/-- Case-sensitive literal lookahead; returns the rest of the input. -/
def matchLit : List Char → List Char → Option (List Char)
  | [], s => some s
  | _ :: _, [] => none
  | p :: ps, c :: cs => if p = c then matchLit ps cs else none

/-- The lookahead `^(?i)<!DOCTYPE\s+` (RE2 `\s` is exactly the source's
whitespace set). -/
def matchDoctypeStart (s : List Char) : Bool :=
  match matchCI "<!DOCTYPE".toList s with
  | some (c :: _) => isWhitespace c
  | _ => false

/-- The lookahead `^(?i)html`. -/
def matchHtml (s : List Char) : Bool :=
  (matchCI "html".toList s).isSome

/-- The lookahead `^SYSTEM\s+("about:legacy-compat"|'about:legacy-compat')\s*>`
(`SYSTEM` is case-sensitive).  Greedy whitespace scanning is faithful
because a quote or `>` is never a whitespace character. -/
def matchSystemLegacy (s : List Char) : Bool :=
  match matchLit "SYSTEM".toList s with
  | none => false
  | some s1 =>
    match s1 with
    | [] => false
    | c :: _ =>
      if ¬ isWhitespace c then false
      else
        let s2 := s1.dropWhile isWhitespace
        match matchLit "\"about:legacy-compat\"".toList s2 with
        | some s3 => (s3.dropWhile isWhitespace).headD nul = '>'
        | none =>
          match matchLit "'about:legacy-compat'".toList s2 with
          | some s3 => (s3.dropWhile isWhitespace).headD nul = '>'
          | none => false

def current (t : Tokenizer) : Char := t.template.getD t.i nul

def peek (t : Tokenizer) : Char := t.template.getD (t.i + 1) nul

def remaining (t : Tokenizer) : List Char := t.template.drop t.i

def location (t : Tokenizer) : Location :=
  { line := t.line, column := t.column, cursor := t.i }

/-- `advance` returns the previous current rune; if it is the 0 sentinel
the state is unchanged, otherwise the cursor moves one rune and a
line-feed bumps `line` and resets `column` (the source sets it to 0 and
immediately increments). -/
def advance (t : Tokenizer) : Char × Tokenizer :=
  let previous := current t
  if previous = nul then (nul, t)
  else
    (previous,
      { t with
        i := t.i + 1,
        line := if previous = '\n' then t.line + 1 else t.line,
        column := if previous = '\n' then 1 else t.column + 1 })

def advanceN : Nat → Tokenizer → Tokenizer
  | 0, t => t
  | n + 1, t => advanceN n (advance t).2

def consume (t : Tokenizer) (what : Char) : Bool × Tokenizer :=
  if current t = what then (true, (advance t).2) else (false, t)

def skipWsFuel : Nat → Tokenizer → Tokenizer
  | 0, t => t
  | fuel + 1, t =>
    if isWhitespace (current t) then skipWsFuel fuel (advance t).2 else t

def skipWhitespace (t : Tokenizer) : Tokenizer :=
  skipWsFuel (t.template.length + 1) t

/-- `template[a:b]` as a list slice. -/
def slice (l : List Char) (a b : Nat) : List Char := (l.drop a).take (b - a)

/-- The loop of `until`: stop at the 0 sentinel or at an occurrence of
`what` that is not immediately preceded by a rune in `notAfter`. -/
def untilLoop : Nat → Tokenizer → Char → List Char → Char → Tokenizer
  | 0, t, _, _, _ => t
  | fuel + 1, t, what, notAfter, previous =>
    let c := current t
    if c = nul then t
    else if c = what && ¬ notAfter.contains previous then t
    else untilLoop fuel (advance t).2 what notAfter c

def until' (t : Tokenizer) (what : Char) (notAfter : List Char) :
    List Char × Tokenizer :=
  let t' := untilLoop (t.template.length + 1) t what notAfter nul
  (slice t'.template t.i t'.i, t')

def validTagChar (c : Char) : Bool := isLetter c || c = '-' || c = ':'

/-- Terminators of the tag-name loop: whitespace, the 0 sentinel, `>`. -/
def tagTerm (c : Char) : Bool := isWhitespace c || c = nul || c = '>'

def tagNameLoop : Nat → Tokenizer → (Except String Unit) × Tokenizer
  | 0, t => (.ok (), t)
  | fuel + 1, t =>
    let c := current t
    if ¬ tagTerm c then
      if ¬ validTagChar c then (.error "unexpected character in tag name", t)
      else tagNameLoop fuel (advance t).2
    else (.ok (), t)

def tagName (t : Tokenizer) : (Except String (List Char)) × Tokenizer :=
  let start := t.i
  let a := advance t
  if ¬ isLetter a.1 then (.error "tag name must start with a letter", a.2)
  else
    let r := tagNameLoop (a.2.template.length + 1) a.2
    match r.1 with
    | .error e => (.error e, r.2)
    | .ok _ => (.ok (slice r.2.template start r.2.i), r.2)

def validAttrChar (c : Char) : Bool :=
  isDigit c || isLetter c || c = '-' || c = '_' || c = ':'

/-- Terminators of the attribute-name loop: whitespace, the 0 sentinel,
`>`, `=`. -/
def attrTerm (c : Char) : Bool := isWhitespace c || c = nul || c = '>' || c = '='

def attrNameLoop : Nat → Tokenizer → (Except String Unit) × Tokenizer
  | 0, t => (.ok (), t)
  | fuel + 1, t =>
    let c := current t
    if ¬ attrTerm c then
      if ¬ validAttrChar c then
        (.error "unexpected character in attribute name", t)
      else attrNameLoop fuel (advance t).2
    else (.ok (), t)

def attributeName (t : Tokenizer) : (Except String (List Char)) × Tokenizer :=
  if ¬ validAttrChar (current t) then
    (.error "attribute name must not start with a digit", t)
  else
    let start := t.i
    let r := attrNameLoop (t.template.length + 1) t
    match r.1 with
    | .error e => (.error e, r.2)
    | .ok _ =>
      if current r.2 = nul then (.error "unexpected end of input", r.2)
      else (.ok (slice r.2.template start r.2.i), r.2)

def string (t : Tokenizer) : (Except String (List Char)) × Tokenizer :=
  let a1 := advance t
  let u := until' a1.2 a1.1 ['\\']
  let a2 := advance u.2
  if a2.1 ≠ '"' && a2.1 ≠ '\'' then (.error "expected closing quote", a2.2)
  else (.ok u.1, a2.2)

/-- One iteration body of the attribute loop of `startTag` (source lines
105–128): name location, attribute name, optional `= "value"`. -/
def parseAttr (t : Tokenizer) : (Except String Attribute) × Tokenizer :=
  let nameLocation := location t
  let r := attributeName t
  match r.1 with
  | .error e => (.error e, r.2)
  | .ok nm =>
    let t2 := skipWhitespace r.2
    let c3 := consume t2 '='
    if c3.1 then
      let t4 := skipWhitespace c3.2
      let valueLocation := location t4
      if ¬ (current t4 = '"' || current t4 = '\'') then
        (.error "expected quotes in attribute definition", t4)
      else
        let s := string t4
        match s.1 with
        | .error e => (.error e, s.2)
        | .ok v =>
          (.ok { name := nm, value := v, nameLocation := nameLocation,
                 valueLocation := valueLocation }, s.2)
    else
      (.ok { name := nm, value := [], nameLocation := nameLocation,
             valueLocation := { line := 0, column := 0, cursor := 0 } }, c3.2)

/-- `tag.Attributes[name] = attribute` on the map modelled as an
association list (later occurrences replace earlier ones). -/
def insertAttr : List (List Char × Attribute) → List Char → Attribute →
    List (List Char × Attribute)
  | [], k, v => [(k, v)]
  | (k', v') :: rest, k, v =>
    if k' = k then (k, v) :: rest else (k', v') :: insertAttr rest k v

def startTagLoop : Nat → Tokenizer → List (List Char × Attribute) →
    (Except String (List (List Char × Attribute))) × Tokenizer
  | 0, t, attrs => (.ok attrs, t)
  | fuel + 1, t, attrs =>
    if current t = '>' || current t = '/' then (.ok attrs, t)
    else
      let p := parseAttr t
      match p.1 with
      | .error e => (.error e, p.2)
      | .ok a =>
        startTagLoop fuel (skipWhitespace p.2) (insertAttr attrs a.name a)

def startTag (t : Tokenizer) : Token × Tokenizer :=
  let loc := location t
  let t1 := (advance t).2
  if ¬ isLetter (current t1) then
    (.illegal "expected tag name" (location t1), t1)
  else
    let r := tagName t1
    match r.1 with
    | .error e => (.illegal e (location r.2), r.2)
    | .ok nm =>
      let t3 := skipWhitespace r.2
      let l := startTagLoop (t3.template.length + 1) t3 []
      match l.1 with
      | .error e => (.illegal e (location l.2), l.2)
      | .ok attrs =>
        let c5 := consume l.2 '/'
        let c6 := consume c5.2 '>'
        if ¬ c6.1 then
          (.illegal "expected closing angle bracket" (location c6.2), c6.2)
        else (.startTag nm attrs c5.1 loc, c6.2)

def endTag (t : Tokenizer) : Token × Tokenizer :=
  let loc := location t
  let t1 := (advance t).2
  let t2 := (advance t1).2
  if ¬ isLetter (current t2) then
    (.illegal "expected tag name" (location t2), t2)
  else
    let r := tagName t2
    match r.1 with
    | .error e => (.illegal e (location r.2), r.2)
    | .ok nm =>
      let t4 := skipWhitespace r.2
      let c5 := consume t4 '>'
      if ¬ c5.1 then
        (.illegal "expected closing angle bracket" (location c5.2), c5.2)
      else (.endTag nm loc, c5.2)

def doctype (t : Tokenizer) : Token × Tokenizer :=
  let loc := location t
  let t1 := advanceN 10 t
  let t2 := skipWhitespace t1
  if ¬ matchHtml (remaining t2) then
    (.illegal "expected `html` after `<!DOCTYPE `" (location t2), t2)
  else
    let t3 := advanceN 4 t2
    let t4 := skipWhitespace t3
    if matchSystemLegacy (remaining t4) then
      let t5 := (until' t4 '>' []).2
      let t6 := (advance t5).2
      (.doctype true loc, t6)
    else
      let c5 := consume t4 '>'
      if ¬ c5.1 then
        (.illegal "malformed DOCTYPE, expected closing angle bracket" (location c5.2), c5.2)
      else (.doctype false loc, c5.2)

/-- The guard of the text-consuming loop of `next` (source line 42). -/
def textCond (t : Tokenizer) : Bool :=
  ¬ current t = nul &&
    (¬ current t = '<' ||
      (current t = '<' && ¬ isLetter (peek t) && peek t ≠ '/' && peek t ≠ '!'))

def textLoop : Nat → Tokenizer → Tokenizer
  | 0, t => t
  | fuel + 1, t => if textCond t then textLoop fuel (advance t).2 else t

def next (t : Tokenizer) : Token × Tokenizer :=
  if matchDoctypeStart (remaining t) then doctype t
  else if current t = '<' && peek t = '/' then endTag t
  else if current t = '<' && isLetter (peek t) then startTag t
  else if current t = nul then (.eof (location t), t)
  else
    let textLocation := location t
    let t' := textLoop (t.template.length + 1) t
    (.text (slice t'.template textLocation.cursor t'.i) textLocation, t')

/-- The `Tokenize` driver truncated to `fuel` pulls by an always-pulling
consumer: it stops early exactly when a produced token's kind is
`"EOF"`, which is then not yielded. -/
def tokensFuel : Nat → Tokenizer → List Token
  | 0, _ => []
  | fuel + 1, t =>
    let p := next t
    if p.1.kind = "EOF" then [] else p.1 :: tokensFuel fuel p.2

def Tokenize (template : List Char) (fuel : Nat) : List Token :=
  tokensFuel fuel (NewTokenizer template)

/-- The scanner state after `k` pulls. -/
def driveState : Nat → Tokenizer → Tokenizer
  | 0, t => t
  | k + 1, t => driveState k (next t).2

/-! ### Basic cursor lemmas -/

theorem getD_eq_headD_drop : ∀ (l : List Char) (i : Nat) (d : Char),
    l.getD i d = (l.drop i).headD d
  | [], i, _ => by cases i <;> rfl
  | _ :: _, 0, _ => rfl
  | _ :: cs, i + 1, d => getD_eq_headD_drop cs i d

theorem current_eq_headD (t : Tokenizer) :
    current t = (remaining t).headD nul :=
  getD_eq_headD_drop t.template t.i nul

theorem current_lt_of_ne {t : Tokenizer} (h : current t ≠ nul) :
    t.i < t.template.length := by
  by_contra hlt
  exact h (List.getD_eq_default _ _ (Nat.le_of_not_lt hlt))

theorem advance_template (t : Tokenizer) :
    ((advance t).2).template = t.template := by
  simp only [advance]
  split <;> rfl

theorem advance_i_le (t : Tokenizer) : t.i ≤ ((advance t).2).i := by
  simp only [advance]
  split
  · exact Nat.le_refl _
  · exact Nat.le_succ _

theorem advance_i_eq {t : Tokenizer} (h : current t ≠ nul) :
    ((advance t).2).i = t.i + 1 := by
  simp only [advance]
  split
  · exact absurd (by assumption) h
  · rfl

theorem advance_fst (t : Tokenizer) : (advance t).1 = current t := by
  simp only [advance]
  split
  · exact (by assumption : current t = nul).symm
  · rfl

theorem advanceN_template : ∀ (n : Nat) (t : Tokenizer),
    (advanceN n t).template = t.template
  | 0, _ => rfl
  | n + 1, t => by
    simp only [advanceN]
    exact (advanceN_template n _).trans (advance_template t)

theorem advanceN_i_le : ∀ (n : Nat) (t : Tokenizer), t.i ≤ (advanceN n t).i
  | 0, _ => Nat.le_refl _
  | n + 1, t => by
    simp only [advanceN]
    exact Nat.le_trans (advance_i_le t) (advanceN_i_le n _)

theorem advanceN_i_strict {t : Tokenizer} (n : Nat) (h : current t ≠ nul) :
    t.i < (advanceN (n + 1) t).i := by
  simp only [advanceN]
  refine Nat.lt_of_lt_of_le ?_ (advanceN_i_le n _)
  rw [advance_i_eq h]
  exact Nat.lt_succ_self _

theorem skipWsFuel_template : ∀ (fuel : Nat) (t : Tokenizer),
    (skipWsFuel fuel t).template = t.template
  | 0, _ => rfl
  | fuel + 1, t => by
    simp only [skipWsFuel]
    split
    · exact (skipWsFuel_template fuel _).trans (advance_template t)
    · rfl

theorem skipWsFuel_i_le : ∀ (fuel : Nat) (t : Tokenizer),
    t.i ≤ (skipWsFuel fuel t).i
  | 0, _ => Nat.le_refl _
  | fuel + 1, t => by
    simp only [skipWsFuel]
    split
    · exact Nat.le_trans (advance_i_le t) (skipWsFuel_i_le fuel _)
    · exact Nat.le_refl _

theorem skipWhitespace_template (t : Tokenizer) :
    (skipWhitespace t).template = t.template :=
  skipWsFuel_template _ t

theorem skipWhitespace_i_le (t : Tokenizer) : t.i ≤ (skipWhitespace t).i :=
  skipWsFuel_i_le _ t

theorem consume_template (t : Tokenizer) (w : Char) :
    ((consume t w).2).template = t.template := by
  simp only [consume]
  split
  · exact advance_template t
  · rfl

theorem consume_i_le (t : Tokenizer) (w : Char) : t.i ≤ ((consume t w).2).i := by
  simp only [consume]
  split
  · exact advance_i_le t
  · exact Nat.le_refl _

theorem untilLoop_template : ∀ (fuel : Nat) (t : Tokenizer) (what : Char)
    (na : List Char) (prev : Char),
    (untilLoop fuel t what na prev).template = t.template
  | 0, _, _, _, _ => rfl
  | fuel + 1, t, what, na, prev => by
    simp only [untilLoop]
    split
    · rfl
    · split
      · rfl
      · exact (untilLoop_template fuel _ what na _).trans (advance_template t)

theorem untilLoop_i_le : ∀ (fuel : Nat) (t : Tokenizer) (what : Char)
    (na : List Char) (prev : Char),
    t.i ≤ (untilLoop fuel t what na prev).i
  | 0, _, _, _, _ => Nat.le_refl _
  | fuel + 1, t, what, na, prev => by
    simp only [untilLoop]
    split
    · exact Nat.le_refl _
    · split
      · exact Nat.le_refl _
      · exact Nat.le_trans (advance_i_le t) (untilLoop_i_le fuel _ what na _)

theorem untilLoop_current : ∀ (fuel : Nat) (t : Tokenizer) (what : Char)
    (na : List Char) (prev : Char),
    t.template.length - t.i < fuel →
    current (untilLoop fuel t what na prev) = nul ∨
      current (untilLoop fuel t what na prev) = what
  | 0, t, _, _, _, h => absurd h (Nat.not_lt_zero _)
  | fuel + 1, t, what, na, prev, h => by
    simp only [untilLoop]
    split
    · exact Or.inl (by assumption)
    · split
      · rename_i h1 h2
        rw [Bool.and_eq_true] at h2
        exact Or.inr (by simpa using h2.1)
      · rename_i h1 h2
        refine untilLoop_current fuel _ what na _ ?_
        rw [advance_template, advance_i_eq h1]
        have hlt := current_lt_of_ne h1
        omega

theorem until'_template (t : Tokenizer) (what : Char) (na : List Char) :
    ((until' t what na).2).template = t.template :=
  untilLoop_template _ t what na nul

theorem until'_i_le (t : Tokenizer) (what : Char) (na : List Char) :
    t.i ≤ ((until' t what na).2).i :=
  untilLoop_i_le _ t what na nul

/-! ### Name-scanning loops -/

theorem tagNameLoop_i_le : ∀ (fuel : Nat) (t : Tokenizer),
    t.i ≤ ((tagNameLoop fuel t).2).i
  | 0, _ => Nat.le_refl _
  | fuel + 1, t => by
    simp only [tagNameLoop]
    split
    · split
      · exact Nat.le_refl _
      · exact Nat.le_trans (advance_i_le t) (tagNameLoop_i_le fuel _)
    · exact Nat.le_refl _

/-- With enough fuel, the tag-name loop either stops cleanly at a
terminator or fails at a character which is neither a terminator nor a
valid tag-name character, with the fixed error message. -/
theorem tagNameLoop_spec : ∀ (fuel : Nat) (t : Tokenizer),
    t.template.length - t.i < fuel →
    ((tagNameLoop fuel t).1 = .ok () ∧
        tagTerm (current (tagNameLoop fuel t).2) = true) ∨
      ((tagNameLoop fuel t).1 = .error "unexpected character in tag name" ∧
        tagTerm (current (tagNameLoop fuel t).2) = false ∧
        validTagChar (current (tagNameLoop fuel t).2) = false)
  | 0, t, h => absurd h (Nat.not_lt_zero _)
  | fuel + 1, t, h => by
    simp only [tagNameLoop]
    split
    · split
      · rename_i h1 h2
        simp only [Bool.not_eq_true] at h1 h2
        exact Or.inr ⟨rfl, h1, h2⟩
      · rename_i h1 h2
        refine tagNameLoop_spec fuel _ ?_
        have hne : current t ≠ nul := by
          intro hc
          simp [tagTerm, hc] at h1
        rw [advance_template, advance_i_eq hne]
        have hlt := current_lt_of_ne hne
        omega
    · rename_i h1
      rw [not_not] at h1
      exact Or.inl ⟨rfl, h1⟩

theorem attrNameLoop_i_le : ∀ (fuel : Nat) (t : Tokenizer),
    t.i ≤ ((attrNameLoop fuel t).2).i
  | 0, _ => Nat.le_refl _
  | fuel + 1, t => by
    simp only [attrNameLoop]
    split
    · split
      · exact Nat.le_refl _
      · exact Nat.le_trans (advance_i_le t) (attrNameLoop_i_le fuel _)
    · exact Nat.le_refl _

/-- With enough fuel, the attribute-name loop either stops cleanly at a
terminator or fails at a character which is neither a terminator nor a
valid attribute-name character, with the fixed error message. -/
theorem attrNameLoop_spec : ∀ (fuel : Nat) (t : Tokenizer),
    t.template.length - t.i < fuel →
    ((attrNameLoop fuel t).1 = .ok () ∧
        attrTerm (current (attrNameLoop fuel t).2) = true) ∨
      ((attrNameLoop fuel t).1 = .error "unexpected character in attribute name" ∧
        attrTerm (current (attrNameLoop fuel t).2) = false ∧
        validAttrChar (current (attrNameLoop fuel t).2) = false)
  | 0, t, h => absurd h (Nat.not_lt_zero _)
  | fuel + 1, t, h => by
    simp only [attrNameLoop]
    split
    · split
      · rename_i h1 h2
        simp only [Bool.not_eq_true] at h1 h2
        exact Or.inr ⟨rfl, h1, h2⟩
      · rename_i h1 h2
        refine attrNameLoop_spec fuel _ ?_
        have hne : current t ≠ nul := by
          intro hc
          simp [attrTerm, hc] at h1
        rw [advance_template, advance_i_eq hne]
        have hlt := current_lt_of_ne hne
        omega
    · rename_i h1
      rw [not_not] at h1
      exact Or.inl ⟨rfl, h1⟩

theorem tagName_i_le (t : Tokenizer) : t.i ≤ ((tagName t).2).i := by
  simp only [tagName]
  split
  · exact advance_i_le t
  · split <;> exact Nat.le_trans (advance_i_le t) (tagNameLoop_i_le _ _)

theorem attributeName_i_le (t : Tokenizer) : t.i ≤ ((attributeName t).2).i := by
  simp only [attributeName]
  split
  · exact Nat.le_refl _
  · split
    · exact attrNameLoop_i_le _ _
    · split <;> exact attrNameLoop_i_le _ _

theorem string_i_le (t : Tokenizer) : t.i ≤ ((string t).2).i := by
  simp only [string]
  have h1 := advance_i_le t
  have h2 := until'_i_le (advance t).2 (advance t).1 ['\\']
  have h3 := advance_i_le (until' (advance t).2 (advance t).1 ['\\']).2
  split <;> (dsimp only; omega)

/-! ### The quoted-string scan closes with the opening quote -/

/-- The `until` scan always stops at the 0 sentinel or at the target
rune: its fuel is always sufficient. -/
theorem until'_current (t : Tokenizer) (what : Char) (na : List Char) :
    current ((until' t what na).2) = nul ∨ current ((until' t what na).2) = what :=
  untilLoop_current _ t what na nul (Nat.lt_succ_of_le (Nat.sub_le _ _))

/-- If `string` succeeds, the template is unchanged, at least one rune
was consumed, and the closing rune it consumed last is exactly the
opening quote it started on. -/
theorem string_closing {t : Tokenizer} {lit : List Char} {t' : Tokenizer}
    (_hq : current t = '"' ∨ current t = '\'')
    (h : string t = (.ok lit, t')) :
    t'.template = t.template ∧ 0 < t'.i ∧
      t'.template.getD (t'.i - 1) nul = current t := by
  have hfst : (advance t).1 = current t := advance_fst t
  have ht1 : ((advance t).2).template = t.template := advance_template t
  have hcur := until'_current (advance t).2 (advance t).1 ['\\']
  have htu : ((until' (advance t).2 (advance t).1 ['\\']).2).template = t.template :=
    (until'_template _ _ _).trans ht1
  simp only [string] at h
  split at h
  · exact absurd (congrArg Prod.fst h) (by simp)
  · rename_i hcond
    have hne : current (until' (advance t).2 (advance t).1 ['\\']).2 ≠ nul := by
      intro hn
      rw [advance_fst, hn] at hcond
      exact hcond (by decide)
    have hc2 : current (until' (advance t).2 (advance t).1 ['\\']).2 = current t := by
      rcases hcur with hc | hc
      · exact absurd hc hne
      · rw [hc, hfst]
    have h2' : t' = (advance (until' (advance t).2 (advance t).1 ['\\']).2).2 :=
      (congrArg Prod.snd h).symm
    refine ⟨?_, ?_, ?_⟩
    · rw [h2', advance_template, htu]
    · rw [h2', advance_i_eq hne]
      exact Nat.succ_pos _
    · rw [h2', advance_template, advance_i_eq hne]
      rw [Nat.add_sub_cancel]
      simp only [current] at hc2
      rw [htu] at hc2 ⊢
      exact hc2

/-! ### Text loop -/

theorem textLoop_template : ∀ (fuel : Nat) (t : Tokenizer),
    (textLoop fuel t).template = t.template
  | 0, _ => rfl
  | fuel + 1, t => by
    simp only [textLoop]
    split
    · exact (textLoop_template fuel _).trans (advance_template t)
    · rfl

theorem textLoop_i_le : ∀ (fuel : Nat) (t : Tokenizer),
    t.i ≤ (textLoop fuel t).i
  | 0, _ => Nat.le_refl _
  | fuel + 1, t => by
    simp only [textLoop]
    split
    · exact Nat.le_trans (advance_i_le t) (textLoop_i_le fuel _)
    · exact Nat.le_refl _

/-- On a remaining input free of `<` and of the 0 sentinel rune, the
text loop consumes everything up to the end of the buffer. -/
theorem textLoop_complete : ∀ (fuel : Nat) (t : Tokenizer),
    t.template.length - t.i < fuel →
    t.i ≤ t.template.length →
    (∀ c ∈ t.template.drop t.i, c ≠ '<' ∧ c ≠ nul) →
    (textLoop fuel t).i = t.template.length
  | 0, t, h, _, _ => absurd h (Nat.not_lt_zero _)
  | fuel + 1, t, h, h2, h3 => by
    rcases Nat.lt_or_eq_of_le h2 with hlt | heq
    · have hdropne : t.template.drop t.i ≠ [] := by
        intro hnil
        have := List.length_drop t.i t.template
        rw [hnil] at this
        simp at this
        omega
      obtain ⟨c, rest, hdrop⟩ := List.exists_cons_of_ne_nil hdropne
      have hcc : current t = c := by
        rw [current_eq_headD]
        unfold remaining
        rw [hdrop]
        rfl
      obtain ⟨hc1, hc2⟩ := h3 c (by rw [hdrop]; exact List.mem_cons_self c rest)
      have hcond : textCond t = true := by
        simp only [textCond, hcc]
        simp [hc1, hc2]
      simp only [textLoop, hcond, if_pos]
      have htpl := advance_template t
      have hi := advance_i_eq (by rw [hcc]; exact hc2)
      rw [textLoop_complete fuel (advance t).2
        (by rw [htpl, hi]; omega) (by rw [htpl, hi]; omega) ?_, htpl]
      intro d hd
      refine h3 d ?_
      rw [htpl, hi, ← List.tail_drop, hdrop] at hd
      rw [hdrop]
      exact List.mem_cons_of_mem c hd
    · have hcur : current t = nul := by
        rw [current_eq_headD]
        unfold remaining
        rw [heq, List.drop_length]
        rfl
      have hcond : textCond t = false := by
        simp [textCond, hcur]
      simp only [textLoop, hcond]
      simp [heq]

/-! ### Monotonicity of the recognizers -/

theorem parseAttr_i_le (t : Tokenizer) : t.i ≤ ((parseAttr t).2).i := by
  have h0 := attributeName_i_le t
  have h1 := skipWhitespace_i_le (attributeName t).2
  have h2 := consume_i_le (skipWhitespace (attributeName t).2) '='
  have h3 := skipWhitespace_i_le ((consume (skipWhitespace (attributeName t).2) '=').2)
  have h4 := string_i_le (skipWhitespace ((consume (skipWhitespace (attributeName t).2) '=').2))
  unfold parseAttr
  dsimp only
  split
  · exact h0
  · split
    · split
      · (dsimp only; omega)
      · split <;> (dsimp only; omega)
    · (dsimp only; omega)

theorem startTagLoop_i_le : ∀ (fuel : Nat) (t : Tokenizer)
    (attrs : List (List Char × Attribute)),
    t.i ≤ ((startTagLoop fuel t attrs).2).i
  | 0, _, _ => Nat.le_refl _
  | fuel + 1, t, attrs => by
    unfold startTagLoop
    dsimp only
    split
    · exact Nat.le_refl _
    · split
      · exact parseAttr_i_le t
      · refine Nat.le_trans (parseAttr_i_le t) (Nat.le_trans ?_
          (startTagLoop_i_le fuel _ _))
        exact skipWhitespace_i_le _

theorem startTag_i_le (t : Tokenizer) : t.i ≤ ((startTag t).2).i := by
  have h0 := advance_i_le t
  have h1 := tagName_i_le (advance t).2
  have h2 := skipWhitespace_i_le (tagName (advance t).2).2
  have h3 := startTagLoop_i_le
    ((skipWhitespace (tagName (advance t).2).2).template.length + 1)
    (skipWhitespace (tagName (advance t).2).2) []
  have h4 := consume_i_le (startTagLoop
    ((skipWhitespace (tagName (advance t).2).2).template.length + 1)
    (skipWhitespace (tagName (advance t).2).2) []).2 '/'
  have h5 := consume_i_le ((consume (startTagLoop
    ((skipWhitespace (tagName (advance t).2).2).template.length + 1)
    (skipWhitespace (tagName (advance t).2).2) []).2 '/').2) '>'
  unfold startTag
  dsimp only
  split
  · exact h0
  · split
    · (dsimp only; omega)
    · split
      · (dsimp only; omega)
      · split <;> (dsimp only; omega)

theorem startTag_i_strict {t : Tokenizer} (h : current t ≠ nul) :
    t.i < ((startTag t).2).i := by
  have hadv : ((advance t).2).i = t.i + 1 := advance_i_eq h
  have h1 := tagName_i_le (advance t).2
  have h2 := skipWhitespace_i_le (tagName (advance t).2).2
  have h3 := startTagLoop_i_le
    ((skipWhitespace (tagName (advance t).2).2).template.length + 1)
    (skipWhitespace (tagName (advance t).2).2) []
  have h4 := consume_i_le (startTagLoop
    ((skipWhitespace (tagName (advance t).2).2).template.length + 1)
    (skipWhitespace (tagName (advance t).2).2) []).2 '/'
  have h5 := consume_i_le ((consume (startTagLoop
    ((skipWhitespace (tagName (advance t).2).2).template.length + 1)
    (skipWhitespace (tagName (advance t).2).2) []).2 '/').2) '>'
  unfold startTag
  dsimp only
  split
  · (dsimp only; omega)
  · split
    · (dsimp only; omega)
    · split
      · (dsimp only; omega)
      · split <;> (dsimp only; omega)

theorem endTag_i_le (t : Tokenizer) : t.i ≤ ((endTag t).2).i := by
  have h0 := advance_i_le t
  have h0' := advance_i_le (advance t).2
  have h1 := tagName_i_le (advance (advance t).2).2
  have h2 := skipWhitespace_i_le (tagName (advance (advance t).2).2).2
  have h3 := consume_i_le (skipWhitespace (tagName (advance (advance t).2).2).2) '>'
  unfold endTag
  dsimp only
  split
  · (dsimp only; omega)
  · split
    · (dsimp only; omega)
    · split <;> (dsimp only; omega)

theorem endTag_i_strict {t : Tokenizer} (h : current t ≠ nul) :
    t.i < ((endTag t).2).i := by
  have hadv : ((advance t).2).i = t.i + 1 := advance_i_eq h
  have h0' := advance_i_le (advance t).2
  have h1 := tagName_i_le (advance (advance t).2).2
  have h2 := skipWhitespace_i_le (tagName (advance (advance t).2).2).2
  have h3 := consume_i_le (skipWhitespace (tagName (advance (advance t).2).2).2) '>'
  unfold endTag
  dsimp only
  split
  · (dsimp only; omega)
  · split
    · (dsimp only; omega)
    · split <;> (dsimp only; omega)

theorem doctype_i_le (t : Tokenizer) : t.i ≤ ((doctype t).2).i := by
  have h0 := advanceN_i_le 10 t
  have h1 := skipWhitespace_i_le (advanceN 10 t)
  have h2 := advanceN_i_le 4 (skipWhitespace (advanceN 10 t))
  have h3 := skipWhitespace_i_le (advanceN 4 (skipWhitespace (advanceN 10 t)))
  have h4 := until'_i_le (skipWhitespace (advanceN 4 (skipWhitespace (advanceN 10 t)))) '>' []
  have h5 := advance_i_le (until' (skipWhitespace (advanceN 4 (skipWhitespace (advanceN 10 t)))) '>' []).2
  have h6 := consume_i_le (skipWhitespace (advanceN 4 (skipWhitespace (advanceN 10 t)))) '>'
  unfold doctype
  dsimp only
  split
  · (dsimp only; omega)
  · split
    · (dsimp only; omega)
    · split <;> (dsimp only; omega)

theorem doctype_i_strict {t : Tokenizer} (h : current t ≠ nul) :
    t.i < ((doctype t).2).i := by
  have h0 : t.i < (advanceN 10 t).i := advanceN_i_strict 9 h
  have h1 := skipWhitespace_i_le (advanceN 10 t)
  have h2 := advanceN_i_le 4 (skipWhitespace (advanceN 10 t))
  have h3 := skipWhitespace_i_le (advanceN 4 (skipWhitespace (advanceN 10 t)))
  have h4 := until'_i_le (skipWhitespace (advanceN 4 (skipWhitespace (advanceN 10 t)))) '>' []
  have h5 := advance_i_le (until' (skipWhitespace (advanceN 4 (skipWhitespace (advanceN 10 t)))) '>' []).2
  have h6 := consume_i_le (skipWhitespace (advanceN 4 (skipWhitespace (advanceN 10 t)))) '>'
  unfold doctype
  dsimp only
  split
  · (dsimp only; omega)
  · split
    · (dsimp only; omega)
    · split <;> (dsimp only; omega)

/-- A successful `<!DOCTYPE ` lookahead implies the current rune is `<`. -/
theorem matchDoctypeStart_current {t : Tokenizer}
    (h : matchDoctypeStart (remaining t) = true) : current t = '<' := by
  rw [current_eq_headD]
  unfold matchDoctypeStart at h
  rcases hr : remaining t with _ | ⟨c, cs⟩
  · rw [hr] at h
    simp [matchCI] at h
  · rw [hr] at h
    simp only [matchCI] at h
    by_cases hf : foldEqCI '<' c = true
    · have : c = '<' := by
        simp only [foldEqCI, isLetter] at hf
        rcases Bool.or_eq_true_iff.mp hf with h1 | h1
        · exact (decide_eq_true_eq.mp h1).symm
        · exfalso
          simp at h1
      rw [this]
      rfl
    · rw [Bool.not_eq_true] at hf
      rw [hf] at h
      simp at h

theorem next_i_le (t : Tokenizer) : t.i ≤ ((next t).2).i := by
  unfold next
  dsimp only
  split
  · exact doctype_i_le t
  · split
    · exact endTag_i_le t
    · split
      · exact startTag_i_le t
      · split
        · exact Nat.le_refl _
        · exact textLoop_i_le _ t

/-- When `next` produces anything except a `Text` or `Eof` token
(a doctype, a start tag, an end tag, or an `Illegal`), the cursor
strictly advances. -/
theorem next_i_strict (t : Tokenizer) (h1 : (next t).1.kind ≠ "TEXT")
    (h2 : (next t).1.kind ≠ "EOF") : t.i < ((next t).2).i := by
  unfold next at h1 h2 ⊢
  dsimp only at h1 h2 ⊢
  split
  · rename_i hd
    exact doctype_i_strict (by rw [matchDoctypeStart_current hd]; decide)
  · split
    · rename_i hd he
      rw [Bool.and_eq_true] at he
      have hlt : current t = '<' := by simpa using he.1
      exact endTag_i_strict (by rw [hlt]; decide)
    · split
      · rename_i hd he hs
        rw [Bool.and_eq_true] at hs
        have hlt : current t = '<' := by simpa using hs.1
        exact startTag_i_strict (by rw [hlt]; decide)
      · split
        · rename_i hd he hs hn
          rw [if_neg hd, if_neg he, if_neg hs, if_pos hn] at h2
          exact absurd rfl h2
        · rename_i hd he hs hn
          rw [if_neg hd, if_neg he, if_neg hs, if_neg hn] at h1
          exact absurd rfl h1

theorem driveState_i_le : ∀ (k : Nat) (t : Tokenizer),
    t.i ≤ (driveState k t).i
  | 0, _ => Nat.le_refl _
  | k + 1, t => by
    simp only [driveState]
    exact Nat.le_trans (next_i_le t) (driveState_i_le k _)

theorem driveState_add : ∀ (a b : Nat) (t : Tokenizer),
    driveState (a + b) t = driveState b (driveState a t)
  | 0, b, t => by simp [driveState]
  | a + 1, b, t => by
    have : a + 1 + b = (a + b) + 1 := by omega
    rw [this]
    simp only [driveState]
    exact driveState_add a b (next t).2

/-- Cursor positions are monotone along the pull sequence. -/
theorem driveState_mono (t : Tokenizer) (k m : Nat) (h : k ≤ m) :
    (driveState k t).i ≤ (driveState m t).i := by
  obtain ⟨d, rfl⟩ := Nat.exists_eq_add_of_le h
  rw [driveState_add]
  exact driveState_i_le d _

/-! ### Driver lemmas -/

/-- Only the `Eof` variant has kind `"EOF"`. -/
theorem kind_eof_iff : ∀ (tok : Token),
    tok.kind = "EOF" ↔ ∃ l, tok = Token.eof l := by
  intro tok
  cases tok <;> simp [Token.kind, doctypeKind]

theorem tokensFuel_no_eof : ∀ (n : Nat) (t : Tokenizer) (tok : Token),
    tok ∈ tokensFuel n t → tok.kind ≠ "EOF"
  | 0, t, tok, h => absurd h (List.not_mem_nil tok)
  | n + 1, t, tok, h => by
    simp only [tokensFuel] at h
    split at h
    · exact absurd h (List.not_mem_nil tok)
    · rcases List.mem_cons.mp h with h | h
      · rw [h]
        assumption
      · exact tokensFuel_no_eof n _ _ h

theorem tokensFuel_eof_nil (n : Nat) (t : Tokenizer)
    (h : (next t).1.kind = "EOF") : tokensFuel n t = [] := by
  cases n with
  | zero => rfl
  | succ n =>
    simp only [tokensFuel]
    rw [if_pos h]

theorem tokensFuel_illegal_cons (n : Nat) (t : Tokenizer)
    (h : (next t).1.kind = "ILLEGAL") :
    tokensFuel (n + 1) t = (next t).1 :: tokensFuel n (next t).2 := by
  simp only [tokensFuel]
  rw [if_neg]
  rw [h]
  decide

theorem tokensFuel_stop : ∀ (n : Nat) (t : Tokenizer),
    (tokensFuel n t).length < n →
    (next (driveState (tokensFuel n t).length t)).1.kind = "EOF"
  | 0, t, h => absurd h (Nat.not_lt_zero _)
  | n + 1, t, h => by
    by_cases hk : (next t).1.kind = "EOF"
    · rw [tokensFuel_eof_nil (n + 1) t hk]
      simpa [driveState] using hk
    · have hcons : tokensFuel (n + 1) t = (next t).1 :: tokensFuel n (next t).2 := by
        simp only [tokensFuel]
        rw [if_neg hk]
      rw [hcons] at h ⊢
      rw [List.length_cons] at h ⊢
      have hlt : (tokensFuel n (next t).2).length < n := by omega
      have hIH := tokensFuel_stop n (next t).2 hlt
      simpa [driveState] using hIH

theorem tokensFuel_stop_le : ∀ (n : Nat) (t : Tokenizer) (k : Nat),
    (next (driveState k t)).1.kind = "EOF" → (tokensFuel n t).length ≤ k
  | 0, t, k, _ => Nat.zero_le k
  | n + 1, t, k, h => by
    simp only [tokensFuel]
    split
    · exact Nat.zero_le k
    · rename_i hk
      cases k with
      | zero =>
        simp only [driveState] at h
        exact absurd h hk
      | succ j =>
        rw [List.length_cons]
        have := tokensFuel_stop_le n (next t).2 j (by simpa [driveState] using h)
        omega

/-! ### Characterizations of the name scanners -/

/-- Full case analysis of `attributeName` failures: a first character
failing validation (including the 0 sentinel) gives the "digit" message
and leaves the state untouched; an invalid non-terminator character
later gives "unexpected character in attribute name"; stopping at the 0
sentinel after a valid first character gives "unexpected end of input". -/
theorem attributeName_error_spec (t : Tokenizer) (e : String) (t' : Tokenizer)
    (h : attributeName t = (.error e, t')) :
    (e = "attribute name must not start with a digit" ∧ t' = t ∧
      validAttrChar (current t) = false) ∨
    (e = "unexpected character in attribute name" ∧
      validAttrChar (current t) = true ∧
      attrTerm (current t') = false ∧ validAttrChar (current t') = false) ∨
    (e = "unexpected end of input" ∧ validAttrChar (current t) = true ∧
      current t' = nul) := by
  have hspec := attrNameLoop_spec (t.template.length + 1) t
    (Nat.lt_succ_of_le (Nat.sub_le _ _))
  unfold attributeName at h
  dsimp only at h
  split at h
  · rename_i hv
    rw [Bool.not_eq_true] at hv
    obtain ⟨he, ht⟩ := Prod.mk.injEq .. ▸ h
    exact Or.inl ⟨(Except.error.injEq .. ▸ he).symm, ht.symm, hv⟩
  · rename_i hv
    rw [not_not] at hv
    split at h
    · rename_i u heq
      rcases hspec with ⟨hok, _⟩ | ⟨herr, hterm, hvalid⟩
      · rw [heq] at hok
        exact absurd hok (by simp)
      · rw [heq] at herr
        obtain ⟨he, ht⟩ := Prod.mk.injEq .. ▸ h
        refine Or.inr (Or.inl ⟨?_, hv, ?_, ?_⟩)
        · have hue : u = e := by injection he
          have hum : u = "unexpected character in attribute name" := by injection herr
          rw [← hue, hum]
        · rw [← ht]
          exact hterm
        · rw [← ht]
          exact hvalid
    · rename_i u heq
      split at h
      · rename_i hn
        obtain ⟨he, ht⟩ := Prod.mk.injEq .. ▸ h
        refine Or.inr (Or.inr ⟨(Except.error.injEq .. ▸ he).symm, hv, ?_⟩)
        rw [← ht]
        exact hn
      · exact absurd (congrArg Prod.fst h) (by simp)

/-- With a letter under the cursor, a `tagName` failure can only be
"unexpected character in tag name", at a character that is neither a
terminator nor a valid tag-name character. -/
theorem tagName_error_spec (t : Tokenizer) (e : String) (t' : Tokenizer)
    (hL : isLetter (current t) = true)
    (h : tagName t = (.error e, t')) :
    e = "unexpected character in tag name" ∧
      tagTerm (current t') = false ∧ validTagChar (current t') = false := by
  have hspec := tagNameLoop_spec ((advance t).2.template.length + 1) (advance t).2
    (Nat.lt_succ_of_le (Nat.sub_le _ _))
  unfold tagName at h
  dsimp only at h
  rw [advance_fst t] at h
  split at h
  · rename_i hv
    rw [Bool.not_eq_true, hL] at hv
    exact absurd hv (by decide)
  · split at h
    · rename_i e' heq
      rcases hspec with ⟨hok, _⟩ | ⟨herr, hterm, hvalid⟩
      · rw [heq] at hok
        exact absurd hok (by simp)
      · rw [heq] at herr
        obtain ⟨he, ht⟩ := Prod.mk.injEq .. ▸ h
        refine ⟨?_, ?_, ?_⟩
        · have hue : e' = e := by injection he
          have hum : e' = "unexpected character in tag name" := by injection herr
          rw [← hue, hum]
        · rw [← ht]
          exact hterm
        · rw [← ht]
          exact hvalid
    · exact absurd (congrArg Prod.fst h) (by simp)

/-- With a letter under the cursor, a successful `tagName` always stops
at a terminator: whitespace, the 0 sentinel, or a closing bracket. -/
theorem tagName_ok_spec (t : Tokenizer) (nm : List Char) (t' : Tokenizer)
    (hL : isLetter (current t) = true)
    (h : tagName t = (.ok nm, t')) : tagTerm (current t') = true := by
  have hspec := tagNameLoop_spec ((advance t).2.template.length + 1) (advance t).2
    (Nat.lt_succ_of_le (Nat.sub_le _ _))
  unfold tagName at h
  dsimp only at h
  rw [advance_fst t] at h
  split at h
  · rename_i hv
    rw [Bool.not_eq_true, hL] at hv
    exact absurd hv (by decide)
  · split at h
    · exact absurd (congrArg Prod.fst h) (by simp)
    · rename_i u heq
      rcases hspec with ⟨_, hterm⟩ | ⟨herr, _, _⟩
      · obtain ⟨_, ht⟩ := Prod.mk.injEq .. ▸ h
        rw [← ht]
        exact hterm
      · rw [heq] at herr
        exact absurd herr (by simp)

/-! ### Attribute without a value -/

/-- When the attribute name parses and no `=` follows, the produced
attribute has the empty value and the zero-valued `Location` (the Go
zero value of the struct field), with the name location captured at
entry. -/
theorem parseAttr_no_value (t : Tokenizer) (nm : List Char) (t1 : Tokenizer)
    (hname : attributeName t = (.ok nm, t1))
    (hne : current (skipWhitespace t1) ≠ '=') :
    parseAttr t = (.ok { name := nm, value := [],
                         nameLocation := location t,
                         valueLocation := { line := 0, column := 0, cursor := 0 } },
      skipWhitespace t1) := by
  unfold parseAttr
  dsimp only
  rw [hname]
  dsimp only
  unfold consume
  rw [if_neg hne]
  dsimp only
  rw [if_neg (by decide)]

/-! ### The doctype legacy flag -/

/-- A produced `Doctype` token's flag equals the result of the
`SYSTEM "about:legacy-compat"` lookahead performed after the `html`
keyword and the following whitespace. -/
theorem doctype_legacy_iff (t : Tokenizer) (b : Bool) (l : Location)
    (h : (doctype t).1 = .doctype b l) :
    b = matchSystemLegacy (remaining (skipWhitespace (advanceN 4
      (skipWhitespace (advanceN 10 t))))) := by
  unfold doctype at h
  dsimp only at h
  split at h
  · exact absurd h (by simp)
  · split at h
    · rename_i hhtml hsys
      have hb : true = b := by injection h
      rw [← hb, hsys]
    · rename_i hhtml hsys
      split at h
      · exact absurd h (by simp)
      · have hb : false = b := by injection h
        rw [Bool.not_eq_true] at hsys
        rw [← hb, hsys]

/-! ### The `<!`-but-not-doctype text stall -/

/-- When the cursor sits on `<!` that does not begin a doctype
declaration, `next` produces an empty `Text` token and leaves the state
(cursor, line and column) exactly as it found it. -/
theorem next_bang_text (t : Tokenizer)
    (h : matchDoctypeStart (remaining t) = false)
    (hc : current t = '<') (hp : peek t = '!') :
    next t = (.text [] (location t), t) := by
  unfold next
  rw [h, if_neg (by decide)]
  rw [hc, hp]
  rw [if_neg (by decide), if_neg (by decide), if_neg (by decide)]
  dsimp only
  have htc : textCond t = false := by
    simp [textCond, hc, hp]
  have hstop : textLoop (t.template.length + 1) t = t := by
    simp only [textLoop]
    rw [htc, if_neg (by decide)]
  rw [hstop]
  simp [slice, location, Nat.sub_self]

/-! ### Text runs and end of input -/

/-- `next` at an exhausted buffer produces a token of kind `"EOF"`. -/
theorem next_at_end (t : Tokenizer) (hi : t.template.length ≤ t.i) :
    (next t).1.kind = "EOF" := by
  have hrem : remaining t = [] := by
    unfold remaining
    exact List.drop_eq_nil_of_le hi
  have hcur : current t = nul := List.getD_eq_default _ _ hi
  unfold next
  rw [hrem]
  rw [if_neg (by decide)]
  rw [hcur]
  have h1 : ¬ (nul = '<') := by decide
  rw [if_neg (by simp [h1]), if_neg (by simp [h1]), if_pos rfl]
  rfl

/-- `next` on a nonempty remaining input free of `<` and of the
sentinel rune produces one `Text` token holding the whole remaining
input and drives the cursor to the end of the buffer. -/
theorem next_text_whole (t : Tokenizer)
    (hm : matchDoctypeStart (remaining t) = false)
    (hne : current t ≠ '<') (hnn : current t ≠ nul)
    (h3 : ∀ c ∈ t.template.drop t.i, c ≠ '<' ∧ c ≠ nul) :
    (next t).1 = .text (slice t.template t.i t.template.length) (location t) ∧
      ((next t).2).i = t.template.length ∧
      ((next t).2).template = t.template := by
  have hlt := current_lt_of_ne hnn
  have hdone := textLoop_complete (t.template.length + 1) t
    (Nat.lt_succ_of_le (Nat.sub_le _ _)) (Nat.le_of_lt hlt) h3
  have htpl := textLoop_template (t.template.length + 1) t
  unfold next
  rw [hm, if_neg (by decide)]
  rw [if_neg (by simp [hne]), if_neg (by simp [hne]), if_neg hnn]
  dsimp only
  rw [htpl, hdone]
  exact ⟨rfl, rfl, rfl⟩

/-! ### Claims -/

/-- C1 counterexample: on the input `<!x` (a `<!` that is not a doctype),
`next` returns a `Text` token and leaves the cursor exactly where it
started, refuting the claim that every `Text`-returning call strictly
advances the cursor (and that only `Illegal` may stall). -/
theorem c1_counterexample :
    (next (NewTokenizer "<!x".toList)).1 =
      Token.text [] { line := 1, column := 1, cursor := 0 } ∧
    ((next (NewTokenizer "<!x".toList)).2).i = (NewTokenizer "<!x".toList).i := by
  decide

/-- C1 (amended): within one traversal the cursor never decreases
across successive `next` calls, and every call returning a Doctype,
StartTag, EndTag, or Illegal token strictly advances the cursor; a Text
result (and Eof) may leave the cursor unchanged. -/
theorem c1_amended :
    (∀ (t : Tokenizer) (k m : Nat), k ≤ m →
      (driveState k t).i ≤ (driveState m t).i) ∧
    (∀ t : Tokenizer, (next t).1.kind ≠ "TEXT" → (next t).1.kind ≠ "EOF" →
      t.i < ((next t).2).i) :=
  ⟨driveState_mono, next_i_strict⟩

/-- C1 witness: both parts of the amended claim evaluated on `<a>`. -/
theorem c1_witness :
    (driveState 1 (NewTokenizer "<a>".toList)).i ≤
      (driveState 3 (NewTokenizer "<a>".toList)).i ∧
    (NewTokenizer "<a>".toList).i < ((next (NewTokenizer "<a>".toList)).2).i :=
  ⟨c1_amended.1 _ 1 3 (by decide), c1_amended.2 _ (by decide) (by decide)⟩

/-- C2: for an input whose first two runes are `<` and `!` but which
does not match the doctype entry pattern, `next` returns an empty Text
token leaving cursor, line and column unchanged, so the driver never
reaches Eof and produces an endless stream of empty Text tokens. -/
theorem c2_bang_loop (rest : List Char)
    (h : matchDoctypeStart ('<' :: '!' :: rest) = false) :
    next (NewTokenizer ('<' :: '!' :: rest)) =
      (Token.text [] { line := 1, column := 1, cursor := 0 },
        NewTokenizer ('<' :: '!' :: rest)) ∧
    ∀ n : Nat, tokensFuel n (NewTokenizer ('<' :: '!' :: rest)) =
      List.replicate n (Token.text [] { line := 1, column := 1, cursor := 0 }) := by
  have hx := next_bang_text (NewTokenizer ('<' :: '!' :: rest)) h rfl rfl
  refine ⟨hx, ?_⟩
  intro n
  induction n with
  | zero => rfl
  | succ n ih =>
    simp only [tokensFuel]
    rw [hx]
    rw [if_neg (by simp [Token.kind])]
    rw [ih]
    rfl

/-- C2 witness: the HTML comment `<!-- x -->` pulled twice yields two
empty Text tokens. -/
theorem c2_witness :
    tokensFuel 2 (NewTokenizer "<!-- x -->".toList) =
      List.replicate 2 (Token.text [] { line := 1, column := 1, cursor := 0 }) :=
  (c2_bang_loop "-- x -->".toList (by decide)).2 2

/-- C3 counterexample: tokenizing `<div` yields an Illegal whose reason
is "attribute name must not start with a digit", not the claimed
"expected closing angle bracket". -/
theorem c3_counterexample :
    (next (NewTokenizer "<div".toList)).1 =
      Token.illegal "attribute name must not start with a digit"
        { line := 1, column := 5, cursor := 4 } ∧
    "attribute name must not start with a digit" ≠
      "expected closing angle bracket" := by
  decide

/-- C3 (amended): tokenizing `<div` produces exactly one Illegal token,
with reason "attribute name must not start with a digit" (the attribute
loop runs at end of input, and the 0 sentinel fails the first-character
validation of the attribute name). -/
theorem c3_amended :
    Tokenize "<div".toList 5 =
      [Token.illegal "attribute name must not start with a digit"
        { line := 1, column := 5, cursor := 4 }] := by
  decide

/-- C4 counterexample: in `<div disabled>` the value-less attribute
`disabled` has `valueLocation` equal to the zero `Location`, which is
different from its own `nameLocation`. -/
theorem c4_counterexample :
    (next (NewTokenizer "<div disabled>".toList)).1 =
      Token.startTag "div".toList
        [("disabled".toList,
          { name := "disabled".toList, value := [],
            nameLocation := { line := 1, column := 6, cursor := 5 },
            valueLocation := { line := 0, column := 0, cursor := 0 } })]
        false { line := 1, column := 1, cursor := 0 } ∧
    ({ line := 0, column := 0, cursor := 0 } : Location) ≠
      { line := 1, column := 6, cursor := 5 } := by
  decide

/-- C4 (amended): an attribute parsed without an `=value` part gets the
empty value and the zero-valued `Location` (Go's zero struct value), not
its own name location. -/
theorem c4_amended (t : Tokenizer) (nm : List Char) (t1 : Tokenizer)
    (hname : attributeName t = (.ok nm, t1))
    (hne : current (skipWhitespace t1) ≠ '=') :
    parseAttr t = (.ok { name := nm, value := [],
                         nameLocation := location t,
                         valueLocation := { line := 0, column := 0, cursor := 0 } },
      skipWhitespace t1) :=
  parseAttr_no_value t nm t1 hname hne

/-- C4 witness: the amended claim evaluated on the `disabled` attribute
of `<div disabled>`. -/
theorem c4_witness :
    parseAttr { template := "<div disabled>".toList, i := 5, line := 1, column := 6 } =
      (.ok { name := "disabled".toList, value := [],
             nameLocation := { line := 1, column := 6, cursor := 5 },
             valueLocation := { line := 0, column := 0, cursor := 0 } },
       { template := "<div disabled>".toList, i := 13, line := 1, column := 14 }) :=
  c4_amended _ "disabled".toList
    { template := "<div disabled>".toList, i := 13, line := 1, column := 14 }
    rfl (by decide)

/-- C5 counterexample (negation of the claim): there is no state sitting
on an opening quote from which the quoted-value scan succeeds with a
closing rune different from the opening quote — mismatched quote pairs
are never accepted. -/
theorem c5_counterexample :
    ¬ ∃ (t : Tokenizer) (lit : List Char) (t' : Tokenizer),
      (current t = '"' ∨ current t = '\'') ∧
      string t = (.ok lit, t') ∧
      t'.template.getD (t'.i - 1) nul ≠ current t := by
  rintro ⟨t, lit, t', hqv, h, hne⟩
  exact hne (string_closing hqv h).2.2

/-- C5 (amended): the quoted-value scan searches only for the same
character as the opening quote, so whenever it succeeds, the closing
rune it consumed equals the opening quote. -/
theorem c5_amended (t : Tokenizer) (lit : List Char) (t' : Tokenizer)
    (hqv : current t = '"' ∨ current t = '\'')
    (h : string t = (.ok lit, t')) :
    t'.template.getD (t'.i - 1) nul = current t :=
  (string_closing hqv h).2.2

/-- C5 witness: the amended claim evaluated on the literal `"x"`. -/
theorem c5_witness :
    ({ template := ['"', 'x', '"', 'r'], i := 3, line := 1, column := 4 } :
        Tokenizer).template.getD
      (({ template := ['"', 'x', '"', 'r'], i := 3, line := 1, column := 4 } :
        Tokenizer).i - 1) nul =
      current { template := ['"', 'x', '"', 'r'], i := 0, line := 1, column := 1 } :=
  c5_amended { template := ['"', 'x', '"', 'r'], i := 0, line := 1, column := 1 }
    ['x'] { template := ['"', 'x', '"', 'r'], i := 3, line := 1, column := 4 }
    (Or.inl (by decide)) rfl

/-- C6 counterexample: the empty input contains no `<` yet produces the
empty token sequence, not a single empty Text token. -/
theorem c6_counterexample :
    Tokenize "".toList 5 = [] ∧
    Tokenize "".toList 5 ≠
      [Token.text "".toList { line := 1, column := 1, cursor := 0 }] := by
  decide

/-- C6 (amended): every nonempty input containing neither `<` nor the
rune U+0000 (the scanner's end-of-input sentinel) tokenizes to exactly
one Text token carrying the whole input, at cursor 0. -/
theorem c6_amended (tpl : List Char) (hne : tpl ≠ [])
    (hfree : ∀ c ∈ tpl, c ≠ '<' ∧ c ≠ nul) (n : Nat) :
    Tokenize tpl (n + 2) =
      [Token.text tpl { line := 1, column := 1, cursor := 0 }] := by
  obtain ⟨c, rest, rfl⟩ := List.exists_cons_of_ne_nil hne
  have hc := hfree c (List.mem_cons_self c rest)
  have hcur : current (NewTokenizer (c :: rest)) = c := rfl
  have hnlt : current (NewTokenizer (c :: rest)) ≠ '<' := by
    rw [hcur]
    exact hc.1
  have hnn : current (NewTokenizer (c :: rest)) ≠ nul := by
    rw [hcur]
    exact hc.2
  have hm : matchDoctypeStart (remaining (NewTokenizer (c :: rest))) = false := by
    cases hb : matchDoctypeStart (remaining (NewTokenizer (c :: rest))) with
    | false => rfl
    | true => exact absurd (matchDoctypeStart_current hb) hnlt
  have h3 : ∀ d ∈ (NewTokenizer (c :: rest)).template.drop
      (NewTokenizer (c :: rest)).i, d ≠ '<' ∧ d ≠ nul := by
    intro d hd
    refine hfree d ?_
    have hdrop : (NewTokenizer (c :: rest)).template.drop
        (NewTokenizer (c :: rest)).i = c :: rest := rfl
    rw [hdrop] at hd
    exact hd
  obtain ⟨htok, hi, htpl⟩ := next_text_whole (NewTokenizer (c :: rest)) hm hnlt hnn h3
  unfold Tokenize
  simp only [tokensFuel]
  rw [htok]
  rw [if_neg (by simp [Token.kind])]
  have hend : (next (next (NewTokenizer (c :: rest))).2).1.kind = "EOF" := by
    refine next_at_end _ ?_
    rw [hi, htpl]
  rw [if_pos hend]
  have hsl : slice (NewTokenizer (c :: rest)).template (NewTokenizer (c :: rest)).i
      (NewTokenizer (c :: rest)).template.length = c :: rest := by
    simp [slice, NewTokenizer]
  rw [hsl]
  rfl

/-- C6 witness: the amended claim evaluated on `hi`. -/
theorem c6_witness :
    Tokenize "hi".toList 3 =
      [Token.text "hi".toList { line := 1, column := 1, cursor := 0 }] :=
  c6_amended "hi".toList (by decide) (by decide) 1

/-- C7: the driver never emits a token of kind `"EOF"`; it stops exactly
when `next` returns an Eof (an immediate Eof yields the empty sequence,
and truncation before the fuel is exhausted happens exactly at a state
whose `next` is Eof); an Illegal token does not stop it: the Illegal is
yielded and `next` is invoked again on the resulting state. -/
theorem c7_driver :
    (∀ (n : Nat) (t : Tokenizer) (tok : Token),
      tok ∈ tokensFuel n t → tok.kind ≠ "EOF") ∧
    (∀ (n : Nat) (t : Tokenizer), (next t).1.kind = "EOF" →
      tokensFuel n t = []) ∧
    (∀ (n : Nat) (t : Tokenizer), (next t).1.kind = "ILLEGAL" →
      tokensFuel (n + 1) t = (next t).1 :: tokensFuel n (next t).2) ∧
    (∀ (n : Nat) (t : Tokenizer), (tokensFuel n t).length < n →
      (next (driveState (tokensFuel n t).length t)).1.kind = "EOF") ∧
    (∀ (n : Nat) (t : Tokenizer) (k : Nat),
      (next (driveState k t)).1.kind = "EOF" → (tokensFuel n t).length ≤ k) :=
  ⟨tokensFuel_no_eof, tokensFuel_eof_nil, tokensFuel_illegal_cons,
    tokensFuel_stop, tokensFuel_stop_le⟩

/-- C7 witness: on `<a ` the first pull is an Illegal and the driver
keeps going; on the empty input the driver stops at once. -/
theorem c7_witness :
    tokensFuel 2 (NewTokenizer "<a ".toList) =
      (next (NewTokenizer "<a ".toList)).1 ::
        tokensFuel 1 (next (NewTokenizer "<a ".toList)).2 ∧
    tokensFuel 4 (NewTokenizer "".toList) = [] :=
  ⟨c7_driver.2.2.1 1 _ (by decide), c7_driver.2.1 4 _ (by decide)⟩

/-- C8: `<!DOCTYPE html>` tokenizes to exactly one Doctype with
`isLegacy = false` and no Illegal; `<!DOCTYPE HTML SYSTEM
"about:legacy-compat">` to exactly one Doctype with `isLegacy = true`;
and in general a produced Doctype token's flag is true iff the
`SYSTEM "about:legacy-compat"` lookahead (after `html` and whitespace)
succeeded. -/
theorem c8_doctype_legacy :
    Tokenize "<!DOCTYPE html>".toList 3 =
      [Token.doctype false { line := 1, column := 1, cursor := 0 }] ∧
    Tokenize "<!DOCTYPE HTML SYSTEM \"about:legacy-compat\">".toList 3 =
      [Token.doctype true { line := 1, column := 1, cursor := 0 }] ∧
    (∀ (t : Tokenizer) (b : Bool) (l : Location),
      (doctype t).1 = .doctype b l →
      b = matchSystemLegacy (remaining (skipWhitespace (advanceN 4
        (skipWhitespace (advanceN 10 t)))))) :=
  ⟨by decide, by decide, doctype_legacy_iff⟩

/-- C8 witness: the general flag equation evaluated on
`<!DOCTYPE html>`. -/
theorem c8_witness :
    false = matchSystemLegacy (remaining (skipWhitespace (advanceN 4
      (skipWhitespace (advanceN 10 (NewTokenizer "<!DOCTYPE html>".toList)))))) :=
  c8_doctype_legacy.2.2 (NewTokenizer "<!DOCTYPE html>".toList) false
    { line := 1, column := 1, cursor := 0 } (by decide)

/-- C9 counterexample: in `<div @>` the attribute name contains the
invalid character `@` as its first character, and the reason is
"attribute name must not start with a digit", not the claimed
"unexpected character in attribute name". -/
theorem c9_counterexample :
    (next (NewTokenizer "<div @>".toList)).1 =
      Token.illegal "attribute name must not start with a digit"
        { line := 1, column := 6, cursor := 5 } ∧
    "attribute name must not start with a digit" ≠
      "unexpected character in attribute name" := by
  decide

/-- C9 (amended): an invalid character strictly after a valid first
character yields "unexpected character in attribute name" (as in
`<div a@>`); reaching end of input after a valid first character yields
"unexpected end of input" (as in `<div a`); but an invalid first
character — including the 0 sentinel at end of input — yields
"attribute name must not start with a digit" and leaves the state
unchanged. -/
theorem c9_amended :
    ((next (NewTokenizer "<div a@>".toList)).1 =
      Token.illegal "unexpected character in attribute name"
        { line := 1, column := 7, cursor := 6 }) ∧
    ((next (NewTokenizer "<div a".toList)).1 =
      Token.illegal "unexpected end of input"
        { line := 1, column := 7, cursor := 6 }) ∧
    (∀ (t : Tokenizer) (e : String) (t' : Tokenizer),
      attributeName t = (.error e, t') →
      (e = "attribute name must not start with a digit" ∧ t' = t ∧
        validAttrChar (current t) = false) ∨
      (e = "unexpected character in attribute name" ∧
        validAttrChar (current t) = true ∧
        attrTerm (current t') = false ∧ validAttrChar (current t') = false) ∨
      (e = "unexpected end of input" ∧ validAttrChar (current t) = true ∧
        current t' = nul)) :=
  ⟨by decide, by decide, attributeName_error_spec⟩

/-- C9 witness: the error characterization evaluated on the `a@` state
of `<div a@>`. -/
theorem c9_witness :
    ("unexpected character in attribute name" =
        "attribute name must not start with a digit" ∧
      Tokenizer.mk "<div a@>".toList 6 1 7 = Tokenizer.mk "<div a@>".toList 5 1 6 ∧
      validAttrChar (current (Tokenizer.mk "<div a@>".toList 5 1 6)) = false) ∨
    ("unexpected character in attribute name" =
        "unexpected character in attribute name" ∧
      validAttrChar (current (Tokenizer.mk "<div a@>".toList 5 1 6)) = true ∧
      attrTerm (current (Tokenizer.mk "<div a@>".toList 6 1 7)) = false ∧
      validAttrChar (current (Tokenizer.mk "<div a@>".toList 6 1 7)) = false) ∨
    ("unexpected character in attribute name" = "unexpected end of input" ∧
      validAttrChar (current (Tokenizer.mk "<div a@>".toList 5 1 6)) = true ∧
      current (Tokenizer.mk "<div a@>".toList 6 1 7) = nul) :=
  c9_amended.2.2 (Tokenizer.mk "<div a@>".toList 5 1 6)
    "unexpected character in attribute name"
    (Tokenizer.mk "<div a@>".toList 6 1 7) rfl

/-- C10: in a tag name, a character after the first that is not an
ASCII letter, hyphen or colon — for example the digit in `<h1>` — and
is not a terminator (whitespace, `>`, end of input) produces an Illegal
with reason "unexpected character in tag name"; a successful tag name
is always terminated by whitespace, `>`, or end of input. -/
theorem c10_tag_name :
    ((next (NewTokenizer "<h1>".toList)).1 =
      Token.illegal "unexpected character in tag name"
        { line := 1, column := 3, cursor := 2 }) ∧
    (∀ (t : Tokenizer) (e : String) (t' : Tokenizer),
      isLetter (current t) = true → tagName t = (.error e, t') →
      e = "unexpected character in tag name" ∧
        tagTerm (current t') = false ∧ validTagChar (current t') = false) ∧
    (∀ (t : Tokenizer) (nm : List Char) (t' : Tokenizer),
      isLetter (current t) = true → tagName t = (.ok nm, t') →
      tagTerm (current t') = true) :=
  ⟨by decide,
    fun t e t' hL h => tagName_error_spec t e t' hL h,
    fun t nm t' hL h => tagName_ok_spec t nm t' hL h⟩

/-- C10 witness: the failure characterization evaluated on the `h1`
state of `<h1>`, and the success characterization on `<div>`. -/
theorem c10_witness :
    ("unexpected character in tag name" = "unexpected character in tag name" ∧
      tagTerm (current (Tokenizer.mk "<h1>".toList 2 1 3)) = false ∧
      validTagChar (current (Tokenizer.mk "<h1>".toList 2 1 3)) = false) ∧
    tagTerm (current (Tokenizer.mk "<div>".toList 4 1 5)) = true :=
  ⟨c10_tag_name.2.1 (Tokenizer.mk "<h1>".toList 1 1 2)
      "unexpected character in tag name"
      (Tokenizer.mk "<h1>".toList 2 1 3) (by decide) rfl,
    c10_tag_name.2.2 (Tokenizer.mk "<div>".toList 1 1 2)
      "div".toList (Tokenizer.mk "<div>".toList 4 1 5) (by decide) rfl⟩

end Html
